import Mathlib

/-!
Shallow embedding of the core of `src/app.rs` (the `rojmer` terminal
finance tracker): the entity data model (`Bank`, `Bucket`, `Tag`,
`Transaction`), the pending-input buffer (`InputState`), the modal field
navigator (`move_to_next_field` / `move_to_previous_field` /
`switch_to_field`), and the four commit validators (`add_bank`,
`add_bucket`, `add_tag`, `add_transaction`).

Modelling conventions:
* Rust `f64` balances/amounts are modelled as exact rationals `ℚ`;
  `str::parse::<f64>` is modelled by `parseDecimal`, covering the finite
  decimal fragment of the grammar (optional sign, digits, optional
  fractional part).  All concrete inputs in this development stay inside
  that fragment.
* Rust `String` byte indices matter (`String::insert`/`String::remove`
  take byte offsets and panic off a character boundary), so the editor
  buffer operations are modelled byte-accurately: `insertAtByte` /
  `removeAtByte` return `none` exactly when the Rust call panics, and
  `Rojmer.utf8Len` is Rust `str::len` (the UTF-8 byte length).
* `SystemTime::now()` in `add_transaction` is an input: the embedded
  `addTransaction` takes the clock value `now` explicitly.
* `App`'s `should_quit` and `menu_state` fields are omitted: none of the
  modelled operations read or write them.
-/

namespace Rojmer

/-- `Bank` from `src/app.rs` (the spec's FundingSource): name, account
number, and balance (an `f64` in the source, modelled as `ℚ`). -/
structure Bank where
  name : String
  accountnumber : String
  balance : ℚ
deriving DecidableEq, Repr

/-- `Bucket` from `src/app.rs` (the spec's Allocation): embeds a full
copy of its `Bank`. -/
structure Bucket where
  name : String
  balance : ℚ
  bank : Bank
deriving DecidableEq, Repr

/-- `Tag` from `src/app.rs` (the spec's Label): embeds a full copy of its
`Bucket`. -/
structure Tag where
  name : String
  description : String
  bucket : Bucket
deriving DecidableEq, Repr

/-- `TransactionType` from `src/app.rs`. -/
inductive TransactionType where
  | Income
  | Expense
deriving DecidableEq, Repr

/-- `Transaction` from `src/app.rs` (the spec's LedgerEntry); `timestamp`
is unix seconds, `tags` are full copies. -/
structure Transaction where
  id : Nat
  transaction_type : TransactionType
  amount : ℚ
  timestamp : Nat
  tags : List Tag
  description : String
deriving DecidableEq, Repr

/-- `InputField` from `src/app.rs`: the 14 form fields across the four
entity kinds. -/
inductive InputField where
  | BankName
  | BankAccountNumber
  | BankBalance
  | BucketName
  | BucketBalance
  | BucketBankName
  | BucketAccountNumber
  | TagName
  | TagBucketName
  | TagDescription
  | TransactionType
  | TransactionAmount
  | TransactionTags
  | TransactionDescription
deriving DecidableEq, Repr

/-- `InputMode` from `src/app.rs`: `Normal` (idle) or `Editing` with the
live buffer, the byte-indexed cursor, and the active field. -/
inductive InputMode where
  | Normal
  | Editing (input : String) (cursor_position : Nat) (field : InputField)
deriving DecidableEq, Repr

/-- `InputState` from `src/app.rs`: the mode plus one pending-text slot
per form field and the status message. -/
structure InputState where
  mode : InputMode
  bank_name : String
  bank_account : String
  bank_balance : String
  bucket_name : String
  bucket_balance : String
  bucket_bank_name : String
  bucket_account : String
  tag_name : String
  tag_bucket : String
  tag_description : String
  transaction_type : String
  transaction_amount : String
  transaction_tags : String
  transaction_description : String
  message : String
deriving DecidableEq, Repr

/-- `UserData` from `src/app.rs`: the four insertion-ordered entity
collections. -/
structure UserData where
  bank : List Bank
  bucket : List Bucket
  tag : List Tag
  transaction : List Transaction
deriving DecidableEq, Repr

/-- `App` from `src/app.rs`, restricted to the fields the modelled
operations touch (`should_quit` and `menu_state` are never read or
written by them). -/
structure App where
  user_data : UserData
  input : InputState
deriving DecidableEq, Repr

/-- Numeric value of a digit run (empty run counts as 0, matching its use
for integer and fractional parts below). -/
def digitsVal (cs : List Char) : ℕ :=
  cs.foldl (fun n c => 10 * n + (c.toNat - 48)) 0

/-- Unsigned part of `parseDecimal`: digits with an optional single `.`
and further digits; at least one digit overall. -/
def parseUnsigned (cs : List Char) : Option ℚ :=
  let intPart := cs.takeWhile Char.isDigit
  let rest := cs.dropWhile Char.isDigit
  match rest with
  | [] => if intPart.isEmpty then none else some (digitsVal intPart)
  | '.' :: frac =>
      if frac.all Char.isDigit ∧ ¬(intPart.isEmpty ∧ frac.isEmpty) then
        some ((digitsVal intPart : ℚ) + (digitsVal frac : ℚ) / (10 : ℚ) ^ frac.length)
      else none
  | _ => none

/-- Model of Rust `str::parse::<f64>` on the finite decimal fragment of
its grammar (optional sign, digits, optional fractional part), producing
the exact rational value; exponents, `inf` and `nan` are outside the
model and no input in this development uses them. -/
def parseDecimal (s : String) : Option ℚ :=
  match s.data with
  | '+' :: cs => parseUnsigned cs
  | '-' :: cs => (parseUnsigned cs).map Neg.neg
  | cs => parseUnsigned cs

/-- ASCII lowercasing of one character, as Rust `to_lowercase` acts on
ASCII (and no non-ASCII character lowercases to a bare ASCII letter, so
the two agree on every string whose lowercase form is an ASCII
keyword). -/
def charToLower (c : Char) : Char :=
  if 'A' ≤ c ∧ c ≤ 'Z' then Char.ofNat (c.toNat + 32) else c

/-- Character-wise lowercasing of a string (model of Rust
`str::to_lowercase`). -/
def strToLower (s : String) : String :=
  ⟨s.data.map charToLower⟩

/-- The transaction-kind match in `add_transaction`: lowercase the typed
text and accept `i`/`income`/`e`/`expense`. -/
def parseTransactionType (s : String) : Option TransactionType :=
  let l := strToLower s
  if l = "i" ∨ l = "income" then some TransactionType.Income
  else if l = "e" ∨ l = "expense" then some TransactionType.Expense
  else none

/-- Rust `str::split(sep)`: split a character list on every occurrence
of `sep`, keeping empty pieces (`split` on an empty string still yields
one empty piece, matching Rust). -/
def splitOnChar (sep : Char) : List Char → List (List Char)
  | [] => [[]]
  | c :: rest =>
      let r := splitOnChar sep rest
      if c = sep then [] :: r
      else
        match r with
        | [] => [[c]]
        | g :: gs => (c :: g) :: gs

/-- Rust `str::trim`: drop leading and trailing whitespace. -/
def trimChars (cs : List Char) : List Char :=
  ((cs.dropWhile Char.isWhitespace).reverse.dropWhile Char.isWhitespace).reverse

/-- The tag-name list `add_transaction` iterates over: empty when the
raw `transaction_tags` text is empty, otherwise the comma-separated
pieces with surrounding whitespace trimmed. -/
def tagNames (tags_text : String) : List String :=
  if tags_text.data.isEmpty then []
  else (splitOnChar ',' tags_text.data).map (fun cs => (⟨trimChars cs⟩ : String))

/-- The tag-resolution loop in `add_transaction`: resolve each name in
order against the stored tags; on the first name with no match, fail
with that name. -/
def resolveTags (stored : List Tag) : List String → Except String (List Tag)
  | [] => Except.ok []
  | n :: rest =>
      match stored.find? (fun t => t.name == n) with
      | none => Except.error n
      | some t =>
          match resolveTags stored rest with
          | Except.error m => Except.error m
          | Except.ok ts => Except.ok (t :: ts)

/-- Rust `str::len`: the UTF-8 byte length of a string. -/
def utf8Len (s : String) : Nat :=
  s.data.foldr (fun c n => c.utf8Size + n) 0

/-- Rust `String::insert(i, c)` at byte index `i`: `none` models the
panic when `i` is out of range or not on a character boundary. -/
def insertAtByte : List Char → Nat → Char → Option (List Char)
  | cs, 0, c => some (c :: cs)
  | [], _ + 1, _ => none
  | d :: rest, i + 1, c =>
      if i + 1 < d.utf8Size then none
      else (insertAtByte rest (i + 1 - d.utf8Size) c).map (d :: ·)

/-- Rust `String::remove(i)` at byte index `i`: `none` models the panic
when `i` is out of range or not on a character boundary. -/
def removeAtByte : List Char → Nat → Option (List Char)
  | [], _ => none
  | _ :: rest, 0 => some rest
  | d :: rest, i + 1 =>
      if i + 1 < d.utf8Size then none
      else (removeAtByte rest (i + 1 - d.utf8Size)).map (d :: ·)

/-- `clear_input_fields` from `src/app.rs`: reset every pending slot and
the status message to the empty string (the mode is untouched). -/
def clearInputFields (i : InputState) : InputState :=
  { i with
    bank_name := "", bank_account := "", bank_balance := "",
    bucket_name := "", bucket_balance := "", bucket_bank_name := "",
    bucket_account := "", tag_name := "", tag_bucket := "",
    tag_description := "", transaction_type := "",
    transaction_amount := "", transaction_tags := "",
    transaction_description := "", message := "" }

/-- `update_field_value` from `src/app.rs`: write `value` into the
pending slot named by `field`. -/
def updateFieldValue (field : InputField) (value : String) (i : InputState) : InputState :=
  match field with
  | InputField.BankName => { i with bank_name := value }
  | InputField.BankAccountNumber => { i with bank_account := value }
  | InputField.BankBalance => { i with bank_balance := value }
  | InputField.BucketName => { i with bucket_name := value }
  | InputField.BucketBalance => { i with bucket_balance := value }
  | InputField.BucketBankName => { i with bucket_bank_name := value }
  | InputField.BucketAccountNumber => { i with bucket_account := value }
  | InputField.TagName => { i with tag_name := value }
  | InputField.TagBucketName => { i with tag_bucket := value }
  | InputField.TagDescription => { i with tag_description := value }
  | InputField.TransactionType => { i with transaction_type := value }
  | InputField.TransactionAmount => { i with transaction_amount := value }
  | InputField.TransactionTags => { i with transaction_tags := value }
  | InputField.TransactionDescription => { i with transaction_description := value }

/-- Reader counterpart of `updateFieldValue` (used only to state
theorems): the pending slot named by `field`. -/
def fieldValue (i : InputState) : InputField → String
  | InputField.BankName => i.bank_name
  | InputField.BankAccountNumber => i.bank_account
  | InputField.BankBalance => i.bank_balance
  | InputField.BucketName => i.bucket_name
  | InputField.BucketBalance => i.bucket_balance
  | InputField.BucketBankName => i.bucket_bank_name
  | InputField.BucketAccountNumber => i.bucket_account
  | InputField.TagName => i.tag_name
  | InputField.TagBucketName => i.tag_bucket
  | InputField.TagDescription => i.tag_description
  | InputField.TransactionType => i.transaction_type
  | InputField.TransactionAmount => i.transaction_amount
  | InputField.TransactionTags => i.transaction_tags
  | InputField.TransactionDescription => i.transaction_description

/-- `add_bank` from `src/app.rs`: parse the balance, reject a duplicate
`(name, accountnumber)` pair, otherwise append the new `Bank`, set the
success message and clear all input fields (which also clears the
message). -/
def addBank (app : App) : App :=
  match parseDecimal app.input.bank_balance with
  | none => { app with input := { app.input with message := "Invalid balance format" } }
  | some balance =>
      if app.user_data.bank.any (fun b =>
          b.name == app.input.bank_name && b.accountnumber == app.input.bank_account) then
        { app with input := { app.input with message :=
            "Bank with name \x27" ++ app.input.bank_name ++ "\x27 and account \x27" ++
              app.input.bank_account ++ "\x27 already exists" } }
      else
        let new_bank : Bank :=
          { name := app.input.bank_name
            accountnumber := app.input.bank_account
            balance := balance }
        { app with
          user_data := { app.user_data with bank := app.user_data.bank ++ [new_bank] }
          input := clearInputFields { app.input with message := "Bank added successfully" } }

/-- `add_bucket` from `src/app.rs`: parse the balance, reject a duplicate
bucket name, find the referenced bank by `(name, accountnumber)` or
auto-create it with balance `0`, then append the `Bucket` embedding a
copy of that bank. -/
def addBucket (app : App) : App :=
  match parseDecimal app.input.bucket_balance with
  | none => { app with input := { app.input with message := "Invalid balance format" } }
  | some balance =>
      if app.user_data.bucket.any (fun b => b.name == app.input.bucket_name) then
        { app with input := { app.input with message :=
            "Bucket with name \x27" ++ app.input.bucket_name ++ "\x27 already exists" } }
      else
        match app.user_data.bank.find? (fun b =>
            b.name == app.input.bucket_bank_name &&
              b.accountnumber == app.input.bucket_account) with
        | some existing_bank =>
            { app with
              user_data := { app.user_data with
                bucket := app.user_data.bucket ++
                  [{ name := app.input.bucket_name, balance := balance,
                     bank := existing_bank }] }
              input := clearInputFields { app.input with message := "Bucket added successfully" } }
        | none =>
            let new_bank : Bank :=
              { name := app.input.bucket_bank_name
                accountnumber := app.input.bucket_account
                balance := 0 }
            { app with
              user_data := { app.user_data with
                bank := app.user_data.bank ++ [new_bank]
                bucket := app.user_data.bucket ++
                  [{ name := app.input.bucket_name, balance := balance,
                     bank := new_bank }] }
              input := clearInputFields { app.input with message := "Bucket added successfully" } }

/-- `add_tag` from `src/app.rs`: reject a duplicate tag name, require the
referenced bucket to exist (no auto-creation), then append the `Tag`
embedding a copy of that bucket. -/
def addTag (app : App) : App :=
  if app.user_data.tag.any (fun t => t.name == app.input.tag_name) then
    { app with input := { app.input with message :=
        "Tag with name \x27" ++ app.input.tag_name ++ "\x27 already exists" } }
  else
    match app.user_data.bucket.find? (fun b => b.name == app.input.tag_bucket) with
    | none =>
        { app with input := { app.input with message :=
            "Bucket with name \x27" ++ app.input.tag_bucket ++ "\x27 does not exist" } }
    | some existing_bucket =>
        let new_tag : Tag :=
          { name := app.input.tag_name
            description := app.input.tag_description
            bucket := existing_bucket }
        { app with
          user_data := { app.user_data with tag := app.user_data.tag ++ [new_tag] }
          input := clearInputFields { app.input with message := "Tag added successfully" } }

/-- `add_transaction` from `src/app.rs`: parse the kind and amount,
resolve the comma-separated trimmed tag names (failing on the first
unknown one), then append the `Transaction` with id `count + 1` and the
clock value `now` as timestamp. -/
def addTransaction (now : Nat) (app : App) : App :=
  match parseTransactionType app.input.transaction_type with
  | none =>
      { app with input := { app.input with message :=
          "Invalid transaction type. Use \x27i\x27 for income or \x27e\x27 for expense" } }
  | some transaction_type =>
      match parseDecimal app.input.transaction_amount with
      | none => { app with input := { app.input with message := "Invalid amount format" } }
      | some amount =>
          match resolveTags app.user_data.tag (tagNames app.input.transaction_tags) with
          | Except.error missing =>
              { app with input := { app.input with message :=
                  "Tag \x27" ++ missing ++ "\x27 does not exist" } }
          | Except.ok tags =>
              let transaction_id := app.user_data.transaction.length + 1
              let new_transaction : Transaction :=
                { id := transaction_id
                  transaction_type := transaction_type
                  amount := amount
                  timestamp := now
                  tags := tags
                  description := app.input.transaction_description }
              { app with
                user_data := { app.user_data with
                  transaction := app.user_data.transaction ++ [new_transaction] }
                input := clearInputFields { app.input with message := "Transaction added successfully" } }

/-- `switch_to_field` from `src/app.rs`: enter editing mode on `field`
with `value` preloaded and the cursor at `value.len()` (the byte
length). -/
def switchToField (field : InputField) (value : String) (app : App) : App :=
  { app with input := { app.input with
      mode := InputMode.Editing value (utf8Len value) field } }

/-- `move_to_next_field` from `src/app.rs`: advance to the successor
field, preloading its pending value; at the last field of a form, run
the kind's validator and drop back to `Normal` mode.  `now` is the clock
value consumed by a transaction commit. -/
def moveToNextField (now : Nat) (current_field : InputField) (app : App) : App :=
  match current_field with
  | InputField.BankName =>
      switchToField InputField.BankAccountNumber app.input.bank_account app
  | InputField.BankAccountNumber =>
      switchToField InputField.BankBalance app.input.bank_balance app
  | InputField.BankBalance =>
      let a := addBank app
      { a with input := { a.input with mode := InputMode.Normal } }
  | InputField.BucketName =>
      switchToField InputField.BucketBalance app.input.bucket_balance app
  | InputField.BucketBalance =>
      switchToField InputField.BucketBankName app.input.bucket_bank_name app
  | InputField.BucketBankName =>
      switchToField InputField.BucketAccountNumber app.input.bucket_account app
  | InputField.BucketAccountNumber =>
      let a := addBucket app
      { a with input := { a.input with mode := InputMode.Normal } }
  | InputField.TagName =>
      switchToField InputField.TagBucketName app.input.tag_bucket app
  | InputField.TagBucketName =>
      switchToField InputField.TagDescription app.input.tag_description app
  | InputField.TagDescription =>
      let a := addTag app
      { a with input := { a.input with mode := InputMode.Normal } }
  | InputField.TransactionType =>
      switchToField InputField.TransactionAmount app.input.transaction_amount app
  | InputField.TransactionAmount =>
      switchToField InputField.TransactionTags app.input.transaction_tags app
  | InputField.TransactionTags =>
      switchToField InputField.TransactionDescription app.input.transaction_description app
  | InputField.TransactionDescription =>
      let a := addTransaction now app
      { a with input := { a.input with mode := InputMode.Normal } }

/-- `move_to_previous_field` from `src/app.rs`: step back to the prior
field, preloading its pending value; at the first field of a form, do
nothing. -/
def moveToPreviousField (current_field : InputField) (app : App) : App :=
  match current_field with
  | InputField.BankName => app
  | InputField.BankAccountNumber =>
      switchToField InputField.BankName app.input.bank_name app
  | InputField.BankBalance =>
      switchToField InputField.BankAccountNumber app.input.bank_account app
  | InputField.BucketName => app
  | InputField.BucketBalance =>
      switchToField InputField.BucketName app.input.bucket_name app
  | InputField.BucketBankName =>
      switchToField InputField.BucketBalance app.input.bucket_balance app
  | InputField.BucketAccountNumber =>
      switchToField InputField.BucketBankName app.input.bucket_bank_name app
  | InputField.TagName => app
  | InputField.TagBucketName =>
      switchToField InputField.TagName app.input.tag_name app
  | InputField.TagDescription =>
      switchToField InputField.TagBucketName app.input.tag_bucket app
  | InputField.TransactionType => app
  | InputField.TransactionAmount =>
      switchToField InputField.TransactionType app.input.transaction_type app
  | InputField.TransactionTags =>
      switchToField InputField.TransactionAmount app.input.transaction_amount app
  | InputField.TransactionDescription =>
      switchToField InputField.TransactionTags app.input.transaction_tags app

/-- The predecessor table implicit in `move_to_previous_field` (used only
to state theorems): `none` at the first field of each form. -/
def prevField : InputField → Option InputField
  | InputField.BankName => none
  | InputField.BankAccountNumber => some InputField.BankName
  | InputField.BankBalance => some InputField.BankAccountNumber
  | InputField.BucketName => none
  | InputField.BucketBalance => some InputField.BucketName
  | InputField.BucketBankName => some InputField.BucketBalance
  | InputField.BucketAccountNumber => some InputField.BucketBankName
  | InputField.TagName => none
  | InputField.TagBucketName => some InputField.TagName
  | InputField.TagDescription => some InputField.TagBucketName
  | InputField.TransactionType => none
  | InputField.TransactionAmount => some InputField.TransactionType
  | InputField.TransactionTags => some InputField.TransactionAmount
  | InputField.TransactionDescription => some InputField.TransactionTags

/-- The logical keys `handle_editing_mode` distinguishes (modifiers are
ignored by the source handler). -/
inductive Key where
  | Enter
  | Down
  | Up
  | Esc
  | Backspace
  | Char (c : Char)
deriving DecidableEq, Repr

/-- `handle_editing_mode` from `src/app.rs`.  `field` is the active field
the dispatcher read out of the mode.  `none` models a Rust panic: the
character and backspace arms index the buffer by raw byte offsets, and
`String::insert` / `String::remove` panic off a character boundary.
Every non-panicking outcome is `some`. -/
def handleEditingMode (now : Nat) (key : Key) (field : InputField) (app : App) : Option App :=
  match key with
  | Key.Enter => some (moveToNextField now field app)
  | Key.Down => some (moveToNextField now field app)
  | Key.Up => some (moveToPreviousField field app)
  | Key.Esc =>
      some { app with input := { app.input with mode := InputMode.Normal, message := "" } }
  | Key.Backspace =>
      match app.input.mode with
      | InputMode.Normal => some app
      | InputMode.Editing input cursor_position current_field =>
          if 0 < cursor_position then
            match removeAtByte input.data (cursor_position - 1) with
            | none => none
            | some cs =>
                let input2 : String := ⟨cs⟩
                let i1 := { app.input with
                  mode := InputMode.Editing input2 (cursor_position - 1) current_field }
                some { app with input := updateFieldValue current_field input2 i1 }
          else
            some { app with input := updateFieldValue current_field input app.input }
  | Key.Char c =>
      match app.input.mode with
      | InputMode.Normal => some app
      | InputMode.Editing input cursor_position current_field =>
          match insertAtByte input.data cursor_position c with
          | none => none
          | some cs =>
              let input2 : String := ⟨cs⟩
              let i1 := { app.input with
                mode := InputMode.Editing input2 (cursor_position + 1) current_field }
              some { app with input := updateFieldValue current_field input2 i1 }

/-- The `UserData` states reachable from the empty store by any sequence
of commit attempts (each `add_*` call, with arbitrary typed field
contents and, for transactions, an arbitrary clock value). -/
inductive ReachableData : UserData → Prop
  | empty : ReachableData ⟨[], [], [], []⟩
  | bank (i : InputState) {u : UserData} :
      ReachableData u → ReachableData (addBank ⟨u, i⟩).user_data
  | bucket (i : InputState) {u : UserData} :
      ReachableData u → ReachableData (addBucket ⟨u, i⟩).user_data
  | tag (i : InputState) {u : UserData} :
      ReachableData u → ReachableData (addTag ⟨u, i⟩).user_data
  | txn (now : Nat) (i : InputState) {u : UserData} :
      ReachableData u → ReachableData (addTransaction now ⟨u, i⟩).user_data

/-- No two stored banks share an identity key `(name, accountnumber)`,
no two buckets share a name, no two tags share a name. -/
def goodData (u : UserData) : Prop :=
  u.bank.Pairwise (fun a b => ¬(a.name = b.name ∧ a.accountnumber = b.accountnumber)) ∧
  u.bucket.Pairwise (fun a b => a.name ≠ b.name) ∧
  u.tag.Pairwise (fun a b => a.name ≠ b.name)

/-- The 14 pending-entity slots agree between two input states (the mode
and the status message may differ). -/
def pendingEq (i j : InputState) : Prop :=
  i.bank_name = j.bank_name ∧ i.bank_account = j.bank_account ∧
  i.bank_balance = j.bank_balance ∧ i.bucket_name = j.bucket_name ∧
  i.bucket_balance = j.bucket_balance ∧ i.bucket_bank_name = j.bucket_bank_name ∧
  i.bucket_account = j.bucket_account ∧ i.tag_name = j.tag_name ∧
  i.tag_bucket = j.tag_bucket ∧ i.tag_description = j.tag_description ∧
  i.transaction_type = j.transaction_type ∧ i.transaction_amount = j.transaction_amount ∧
  i.transaction_tags = j.transaction_tags ∧
  i.transaction_description = j.transaction_description

/-- The freshly constructed input state of `App::new`. -/
def emptyInput : InputState :=
  ⟨InputMode.Normal, "", "", "", "", "", "", "", "", "", "", "", "", "", "", ""⟩

/-- The freshly constructed entity store of `App::new`. -/
def emptyData : UserData := ⟨[], [], [], []⟩

theorem addBank_bucket_eq (app : App) :
    (addBank app).user_data.bucket = app.user_data.bucket := by
  unfold addBank
  split
  · rfl
  · split <;> rfl

theorem addBank_tag_eq (app : App) :
    (addBank app).user_data.tag = app.user_data.tag := by
  unfold addBank
  split
  · rfl
  · split <;> rfl

theorem addBank_transaction_eq (app : App) :
    (addBank app).user_data.transaction = app.user_data.transaction := by
  unfold addBank
  split
  · rfl
  · split <;> rfl

theorem addBucket_tag_eq (app : App) :
    (addBucket app).user_data.tag = app.user_data.tag := by
  unfold addBucket
  split
  · rfl
  · split
    · rfl
    · split <;> rfl

theorem addBucket_transaction_eq (app : App) :
    (addBucket app).user_data.transaction = app.user_data.transaction := by
  unfold addBucket
  split
  · rfl
  · split
    · rfl
    · split <;> rfl

theorem addTag_bank_eq (app : App) :
    (addTag app).user_data.bank = app.user_data.bank := by
  unfold addTag
  split
  · rfl
  · split <;> rfl

theorem addTag_bucket_eq (app : App) :
    (addTag app).user_data.bucket = app.user_data.bucket := by
  unfold addTag
  split
  · rfl
  · split <;> rfl

theorem addTag_transaction_eq (app : App) :
    (addTag app).user_data.transaction = app.user_data.transaction := by
  unfold addTag
  split
  · rfl
  · split <;> rfl

theorem addTransaction_bank_eq (now : Nat) (app : App) :
    (addTransaction now app).user_data.bank = app.user_data.bank := by
  unfold addTransaction
  split
  · rfl
  · split
    · rfl
    · split <;> rfl

theorem addTransaction_bucket_eq (now : Nat) (app : App) :
    (addTransaction now app).user_data.bucket = app.user_data.bucket := by
  unfold addTransaction
  split
  · rfl
  · split
    · rfl
    · split <;> rfl

theorem addTransaction_tag_eq (now : Nat) (app : App) :
    (addTransaction now app).user_data.tag = app.user_data.tag := by
  unfold addTransaction
  split
  · rfl
  · split
    · rfl
    · split <;> rfl

theorem addBank_bank_cases (app : App) :
    (addBank app).user_data.bank = app.user_data.bank ∨
    ((∀ b ∈ app.user_data.bank,
        ¬(b.name = app.input.bank_name ∧ b.accountnumber = app.input.bank_account)) ∧
      ∃ v : ℚ, (addBank app).user_data.bank =
        app.user_data.bank ++
          [{ name := app.input.bank_name, accountnumber := app.input.bank_account,
             balance := v }]) := by
  unfold addBank
  split
  · exact Or.inl rfl
  · next v _ =>
    split
    · exact Or.inl rfl
    · next hany =>
      refine Or.inr ⟨?_, v, rfl⟩
      intro b hb hcontra
      exact hany (List.any_eq_true.mpr ⟨b, hb, by simp [hcontra.1, hcontra.2]⟩)

theorem addBucket_bank_cases (app : App) :
    (addBucket app).user_data.bank = app.user_data.bank ∨
    ((∀ b ∈ app.user_data.bank,
        ¬(b.name = app.input.bucket_bank_name ∧
          b.accountnumber = app.input.bucket_account)) ∧
      (addBucket app).user_data.bank =
        app.user_data.bank ++
          [{ name := app.input.bucket_bank_name,
             accountnumber := app.input.bucket_account, balance := 0 }]) := by
  unfold addBucket
  split
  · exact Or.inl rfl
  · split
    · exact Or.inl rfl
    · split
      · exact Or.inl rfl
      · next hfind =>
        refine Or.inr ⟨?_, rfl⟩
        intro b hb hcontra
        have := List.find?_eq_none.mp hfind b hb
        exact this (by simp [hcontra.1, hcontra.2])

theorem addBucket_bucket_cases (app : App) :
    (addBucket app).user_data.bucket = app.user_data.bucket ∨
    ((∀ b ∈ app.user_data.bucket, b.name ≠ app.input.bucket_name) ∧
      ∃ v : ℚ, ∃ bk : Bank, (addBucket app).user_data.bucket =
        app.user_data.bucket ++
          [{ name := app.input.bucket_name, balance := v, bank := bk }]) := by
  unfold addBucket
  split
  · exact Or.inl rfl
  · next v _ =>
    split
    · exact Or.inl rfl
    · next hany =>
      have hfresh : ∀ b ∈ app.user_data.bucket, b.name ≠ app.input.bucket_name := by
        intro b hb hcontra
        exact hany (List.any_eq_true.mpr ⟨b, hb, by simp [hcontra]⟩)
      split
      · exact Or.inr ⟨hfresh, v, _, rfl⟩
      · exact Or.inr ⟨hfresh, v, _, rfl⟩

theorem addTag_tag_cases (app : App) :
    (addTag app).user_data.tag = app.user_data.tag ∨
    ((∀ t ∈ app.user_data.tag, t.name ≠ app.input.tag_name) ∧
      ∃ d : String, ∃ bk : Bucket, (addTag app).user_data.tag =
        app.user_data.tag ++
          [{ name := app.input.tag_name, description := d, bucket := bk }]) := by
  unfold addTag
  split
  · exact Or.inl rfl
  · next hany =>
    have hfresh : ∀ t ∈ app.user_data.tag, t.name ≠ app.input.tag_name := by
      intro t ht hcontra
      exact hany (List.any_eq_true.mpr ⟨t, ht, by simp [hcontra]⟩)
    split
    · exact Or.inl rfl
    · exact Or.inr ⟨hfresh, _, _, rfl⟩

theorem addTransaction_transaction_cases (now : Nat) (app : App) :
    (addTransaction now app).user_data.transaction = app.user_data.transaction ∨
    ∃ k : TransactionType, ∃ a : ℚ, ∃ ts : List Tag,
      (addTransaction now app).user_data.transaction =
        app.user_data.transaction ++
          [{ id := app.user_data.transaction.length + 1, transaction_type := k,
             amount := a, timestamp := now, tags := ts,
             description := app.input.transaction_description }] := by
  unfold addTransaction
  split
  · exact Or.inl rfl
  · split
    · exact Or.inl rfl
    · split
      · exact Or.inl rfl
      · exact Or.inr ⟨_, _, _, rfl⟩

theorem resolveTags_error_iff (stored : List Tag) (ns : List String) :
    (∃ m, resolveTags stored ns = Except.error m) ↔
      ∃ n ∈ ns, stored.find? (fun t => t.name == n) = none := by
  induction ns with
  | nil => simp [resolveTags]
  | cons n rest ih =>
      simp only [resolveTags]
      cases hfind : stored.find? (fun t => t.name == n) with
      | none =>
          constructor
          · intro _
            exact ⟨n, List.mem_cons_self n rest, hfind⟩
          · intro _
            exact ⟨n, rfl⟩
      | some t =>
          cases hrec : resolveTags stored rest with
          | error m =>
              simp only []
              constructor
              · intro _
                rcases ih.mp ⟨m, hrec⟩ with ⟨n', hn', hfind'⟩
                exact ⟨n', List.mem_cons_of_mem _ hn', hfind'⟩
              · intro _; exact ⟨m, rfl⟩
          | ok ts =>
              simp only []
              constructor
              · rintro ⟨m, hm⟩; cases hm
              · rintro ⟨n', hn', hfind'⟩
                rcases List.mem_cons.mp hn' with rfl | hn'rest
                · rw [hfind] at hfind'; cases hfind'
                · rcases ih.mpr ⟨n', hn'rest, hfind'⟩ with ⟨m, hm⟩
                  rw [hm] at hrec; cases hrec

theorem countP_bankKey_eq_one {l : List Bank}
    (hp : l.Pairwise (fun a b => ¬(a.name = b.name ∧ a.accountnumber = b.accountnumber)))
    {b : Bank} (hb : b ∈ l) :
    l.countP (fun x => x.name == b.name && x.accountnumber == b.accountnumber) = 1 := by
  induction l with
  | nil => cases hb
  | cons h t ih =>
      rw [List.countP_cons]
      rcases List.mem_cons.mp hb with rfl | hbt
      · have hzero :
            t.countP (fun x => x.name == b.name && x.accountnumber == b.accountnumber) = 0 := by
          apply List.countP_eq_zero.mpr
          intro x hx
          have hne := (List.pairwise_cons.mp hp).1 x hx
          simp only [Bool.and_eq_true, beq_iff_eq, not_and]
          intro h1 h2
          exact hne ⟨h1.symm, by rw [h2]⟩
        simp [hzero]
      · have hrec := ih (List.pairwise_cons.mp hp).2 hbt
        have hne := (List.pairwise_cons.mp hp).1 b hbt
        have hhead : (h.name == b.name && h.accountnumber == b.accountnumber) = false := by
          simp only [Bool.and_eq_false_iff, beq_eq_false_iff_ne, ne_eq]
          by_contra hcontra
          push_neg at hcontra
          exact hne ⟨hcontra.1, hcontra.2⟩
        simp [hrec, hhead]

/-- C8: LedgerEntry kind parsing succeeds exactly on the lowercased
keywords: `i`/`income` give `Income`, `e`/`expense` give `Expense`, and
on any other typed kind text the commit fails with the parse-error
message and appends nothing to the store. -/
theorem transaction_kind_parsing (s : String) (now : Nat) (app : App) :
    (parseTransactionType s = some TransactionType.Income ↔
      strToLower s = "i" ∨ strToLower s = "income") ∧
    (parseTransactionType s = some TransactionType.Expense ↔
      strToLower s = "e" ∨ strToLower s = "expense") ∧
    (parseTransactionType app.input.transaction_type = none →
      (addTransaction now app).user_data = app.user_data ∧
      (addTransaction now app).input.message =
        "Invalid transaction type. Use \x27i\x27 for income or \x27e\x27 for expense") := by
  refine ⟨?_, ?_, ?_⟩
  · simp only [parseTransactionType]
    split_ifs with h1 h2 <;> simp_all
  · simp only [parseTransactionType]
    split_ifs with h1 h2 <;> simp_all
    rcases h1 with h1 | h1 <;> rw [h1] <;> exact ⟨by decide, by decide⟩
  · intro h
    unfold addTransaction
    rw [h]
    exact ⟨rfl, rfl⟩

/-- Input state for the C8 witness: an unparsable transaction kind. -/
def appW8 : App := ⟨emptyData, { emptyInput with transaction_type := "x" }⟩

/-- Witness for C8 at kind texts `E` and `x`. -/
theorem transaction_kind_parsing_witness :
    parseTransactionType "E" = some TransactionType.Expense ∧
    parseTransactionType "x" = none ∧
    (addTransaction 0 appW8).user_data = appW8.user_data ∧
    (addTransaction 0 appW8).input.message =
      "Invalid transaction type. Use \x27i\x27 for income or \x27e\x27 for expense" :=
  ⟨(transaction_kind_parsing "E" 0 appW8).2.1.mpr (Or.inl rfl), rfl,
   ((transaction_kind_parsing "x" 0 appW8).2.2 rfl).1,
   ((transaction_kind_parsing "x" 0 appW8).2.2 rfl).2⟩

/-- C5: committing a Label whose name is fresh but whose typed Allocation
name resolves to no stored Allocation changes no collection and sets the
message naming the missing Allocation; nothing is auto-created. -/
theorem tag_unresolved_bucket (app : App)
    (hname : ∀ t ∈ app.user_data.tag, t.name ≠ app.input.tag_name)
    (hfind : app.user_data.bucket.find? (fun b => b.name == app.input.tag_bucket) = none) :
    (addTag app).user_data = app.user_data ∧
    (addTag app).input.message =
      "Bucket with name \x27" ++ app.input.tag_bucket ++ "\x27 does not exist" := by
  have hany : app.user_data.tag.any (fun t => t.name == app.input.tag_name) = false := by
    apply List.any_eq_false.mpr
    intro t ht
    simpa using hname t ht
  unfold addTag
  rw [hany, hfind]
  exact ⟨rfl, rfl⟩

/-- Input state for the C5 witness: fresh tag name, unknown bucket. -/
def appW5 : App :=
  ⟨emptyData, { emptyInput with tag_name := "food", tag_bucket := "nope" }⟩

/-- Witness for C5 at a concrete Label referencing a missing
Allocation. -/
theorem tag_unresolved_bucket_witness :
    (addTag appW5).user_data = appW5.user_data ∧
    (addTag appW5).input.message = "Bucket with name \x27nope\x27 does not exist" :=
  tag_unresolved_bucket appW5 (fun t ht => absurd ht (List.not_mem_nil t)) rfl

/-- C2: committing an Allocation with a fresh name and parsing balance
either auto-creates the missing FundingSource with balance 0 and appends
it together with the new Allocation embedding it (both counts grow by
one), or, when a matching FundingSource exists, appends only the
Allocation embedding a copy of the found FundingSource. -/
theorem bucket_commit_autocreate (app : App) (v : ℚ)
    (hparse : parseDecimal app.input.bucket_balance = some v)
    (hfresh : ∀ b ∈ app.user_data.bucket, b.name ≠ app.input.bucket_name) :
    (app.user_data.bank.find? (fun b =>
        b.name == app.input.bucket_bank_name &&
          b.accountnumber == app.input.bucket_account) = none →
      (addBucket app).user_data.bank =
        app.user_data.bank ++
          [{ name := app.input.bucket_bank_name,
             accountnumber := app.input.bucket_account, balance := 0 }] ∧
      (addBucket app).user_data.bucket =
        app.user_data.bucket ++
          [{ name := app.input.bucket_name, balance := v,
             bank := { name := app.input.bucket_bank_name,
                       accountnumber := app.input.bucket_account, balance := 0 } }] ∧
      (addBucket app).user_data.bank.length = app.user_data.bank.length + 1 ∧
      (addBucket app).user_data.bucket.length = app.user_data.bucket.length + 1) ∧
    (∀ bk, app.user_data.bank.find? (fun b =>
        b.name == app.input.bucket_bank_name &&
          b.accountnumber == app.input.bucket_account) = some bk →
      (addBucket app).user_data.bank = app.user_data.bank ∧
      (addBucket app).user_data.bucket =
        app.user_data.bucket ++
          [{ name := app.input.bucket_name, balance := v, bank := bk }] ∧
      (addBucket app).user_data.bank.length = app.user_data.bank.length ∧
      (addBucket app).user_data.bucket.length = app.user_data.bucket.length + 1) := by
  have hany : app.user_data.bucket.any (fun b => b.name == app.input.bucket_name) = false := by
    apply List.any_eq_false.mpr
    intro b hb
    simpa using hfresh b hb
  constructor
  · intro hfind
    unfold addBucket
    rw [hparse]
    simp only [hany, Bool.false_eq_true, if_false]
    rw [hfind]
    exact ⟨rfl, rfl, by simp, by simp⟩
  · intro bk hfind
    unfold addBucket
    rw [hparse]
    simp only [hany, Bool.false_eq_true, if_false]
    rw [hfind]
    exact ⟨rfl, rfl, rfl, by simp⟩

/-- Pending input typed for the C2 witness Allocation. -/
def inputW2 : InputState :=
  { emptyInput with
    bucket_name := "Groceries", bucket_balance := "50",
    bucket_bank_name := "Chase", bucket_account := "12345" }

/-- C2 witness app with no stored FundingSource (auto-creation case). -/
def appW2a : App := ⟨emptyData, inputW2⟩

/-- C2 witness app with the referenced FundingSource already stored. -/
def appW2b : App :=
  ⟨{ emptyData with bank := [{ name := "Chase", accountnumber := "12345", balance := 7 }] },
   inputW2⟩

/-- Witness for C2 at both the auto-creation case and the existing-bank
case. -/
theorem bucket_commit_autocreate_witness :
    ((addBucket appW2a).user_data.bank =
        [{ name := "Chase", accountnumber := "12345", balance := 0 }] ∧
      (addBucket appW2a).user_data.bucket =
        [{ name := "Groceries", balance := ((50 : ℕ) : ℚ),
           bank := { name := "Chase", accountnumber := "12345", balance := 0 } }] ∧
      (addBucket appW2a).user_data.bank.length = 1 ∧
      (addBucket appW2a).user_data.bucket.length = 1) ∧
    ((addBucket appW2b).user_data.bank = appW2b.user_data.bank ∧
      (addBucket appW2b).user_data.bucket =
        [{ name := "Groceries", balance := ((50 : ℕ) : ℚ),
           bank := { name := "Chase", accountnumber := "12345", balance := 7 } }] ∧
      (addBucket appW2b).user_data.bank.length = 1 ∧
      (addBucket appW2b).user_data.bucket.length = 1) :=
  ⟨(bucket_commit_autocreate appW2a ((50 : ℕ) : ℚ) rfl
      (fun b hb => absurd hb (List.not_mem_nil b))).1 rfl,
   (bucket_commit_autocreate appW2b ((50 : ℕ) : ℚ) rfl
      (fun b hb => absurd hb (List.not_mem_nil b))).2
      { name := "Chase", accountnumber := "12345", balance := 7 } rfl⟩

/-- C6: with kind and amount parsing, a transaction commit fails with no
mutation and a message naming the first unresolved label exactly when
some comma-separated trimmed label name resolves to no stored Label
(always resolvable when the labels text is empty); otherwise exactly one
LedgerEntry is appended embedding the resolved Labels in input order. -/
theorem transaction_labels_all_resolve (now : Nat) (app : App) (k : TransactionType) (a : ℚ)
    (hk : parseTransactionType app.input.transaction_type = some k)
    (ha : parseDecimal app.input.transaction_amount = some a) :
    ((∃ m, resolveTags app.user_data.tag (tagNames app.input.transaction_tags) =
        Except.error m) ↔
      ∃ n ∈ tagNames app.input.transaction_tags,
        app.user_data.tag.find? (fun t => t.name == n) = none) ∧
    (∀ m, resolveTags app.user_data.tag (tagNames app.input.transaction_tags) =
        Except.error m →
      (addTransaction now app).user_data = app.user_data ∧
      (addTransaction now app).input.message = "Tag \x27" ++ m ++ "\x27 does not exist") ∧
    (∀ ts, resolveTags app.user_data.tag (tagNames app.input.transaction_tags) =
        Except.ok ts →
      (addTransaction now app).user_data.transaction =
        app.user_data.transaction ++
          [{ id := app.user_data.transaction.length + 1, transaction_type := k, amount := a,
             timestamp := now, tags := ts,
             description := app.input.transaction_description }] ∧
      (addTransaction now app).user_data.bank = app.user_data.bank ∧
      (addTransaction now app).user_data.bucket = app.user_data.bucket ∧
      (addTransaction now app).user_data.tag = app.user_data.tag) ∧
    (app.input.transaction_tags.data.isEmpty = true →
      resolveTags app.user_data.tag (tagNames app.input.transaction_tags) = Except.ok []) := by
  refine ⟨resolveTags_error_iff _ _, ?_, ?_, ?_⟩
  · intro m hm
    unfold addTransaction
    rw [hk, ha, hm]
    exact ⟨rfl, rfl⟩
  · intro ts hts
    unfold addTransaction
    rw [hk, ha, hts]
    exact ⟨rfl, rfl, rfl, rfl⟩
  · intro hempty
    simp [tagNames, hempty, resolveTags]

/-- The stored `groceries` Label in the C6 witness. -/
def tagW6 : Tag :=
  { name := "groceries", description := "food",
    bucket := { name := "Food", balance := 0,
                bank := { name := "Chase", accountnumber := "12345", balance := 0 } } }

/-- C6 witness app typing `e`, `42.00`, `groceries`, `weekly shop`. -/
def appW6 : App :=
  ⟨{ emptyData with tag := [tagW6] },
   { emptyInput with
     transaction_type := "e", transaction_amount := "42.00",
     transaction_tags := "groceries", transaction_description := "weekly shop" }⟩

/-- C6 witness app typing the unknown label `rent` instead. -/
def appW6b : App :=
  ⟨{ emptyData with tag := [tagW6] },
   { emptyInput with
     transaction_type := "e", transaction_amount := "42.00",
     transaction_tags := "rent", transaction_description := "weekly shop" }⟩

/-- Witness for C6: the known label commits one Expense entry embedding
it, the unknown label aborts with no mutation. -/
theorem transaction_labels_all_resolve_witness :
    ((addTransaction 7 appW6).user_data.transaction =
      [{ id := 1, transaction_type := TransactionType.Expense,
         amount := ((42 : ℕ) : ℚ) + ((0 : ℕ) : ℚ) / (10 : ℚ) ^ 2, timestamp := 7,
         tags := [tagW6], description := "weekly shop" }]) ∧
    (addTransaction 7 appW6b).user_data = appW6b.user_data ∧
    (addTransaction 7 appW6b).input.message = "Tag \x27rent\x27 does not exist" :=
  ⟨((transaction_labels_all_resolve 7 appW6 TransactionType.Expense
      (((42 : ℕ) : ℚ) + ((0 : ℕ) : ℚ) / (10 : ℚ) ^ 2) rfl rfl).2.2.1 [tagW6] rfl).1,
   ((transaction_labels_all_resolve 7 appW6b TransactionType.Expense
      (((42 : ℕ) : ℚ) + ((0 : ℕ) : ℚ) / (10 : ℚ) ^ 2) rfl rfl).2.1 "rent" rfl).1,
   ((transaction_labels_all_resolve 7 appW6b TransactionType.Expense
      (((42 : ℕ) : ℚ) + ((0 : ℕ) : ℚ) / (10 : ℚ) ^ 2) rfl rfl).2.1 "rent" rfl).2⟩

/-- C7: a committed transaction gets id `count + 1`, and in every store
reachable by commits the stored transactions carry ids `1, 2, 3, …` in
commit order, whatever other entity kinds were created in between. -/
theorem transaction_ids_sequential :
    (∀ (now : Nat) (app : App) (t : Transaction),
      (addTransaction now app).user_data.transaction =
        app.user_data.transaction ++ [t] →
      t.id = app.user_data.transaction.length + 1) ∧
    (∀ u, ReachableData u →
      u.transaction.map Transaction.id = List.range' 1 u.transaction.length) := by
  constructor
  · intro now app t h
    rcases addTransaction_transaction_cases now app with hsame | ⟨k, a, ts, happ⟩
    · rw [hsame] at h
      exact absurd (congrArg List.length h) (by simp)
    · rw [happ] at h
      have h2 := List.append_cancel_left h
      have h3 :
          ({ id := app.user_data.transaction.length + 1, transaction_type := k, amount := a,
             timestamp := now, tags := ts,
             description := app.input.transaction_description } : Transaction) = t := by
        simpa using h2
      rw [← h3]
  · intro u hu
    induction hu with
    | empty => rfl
    | bank i hu ih =>
        rw [addBank_transaction_eq]
        exact ih
    | bucket i hu ih =>
        rw [addBucket_transaction_eq]
        exact ih
    | tag i hu ih =>
        rw [addTag_transaction_eq]
        exact ih
    | txn now i hu ih =>
        rcases addTransaction_transaction_cases now ⟨_, i⟩ with hsame | ⟨k, a, ts, happ⟩
        · rw [hsame]
          exact ih
        · rw [happ]
          rw [List.map_append, List.length_append]
          simp only [List.map_cons, List.map_nil, List.length_cons, List.length_nil]
          rw [List.range'_concat]
          rw [ih]
          simp [Nat.add_comm]

/-- Pending input typed for the C7 witness transactions. -/
def inputW7 : InputState :=
  { emptyInput with transaction_type := "i", transaction_amount := "5" }

/-- First committed transaction of the C7 witness. -/
def tW7a : Transaction := ⟨1, TransactionType.Income, ((5 : ℕ) : ℚ), 3, [], ""⟩

/-- Second committed transaction of the C7 witness. -/
def tW7b : Transaction := ⟨2, TransactionType.Income, ((5 : ℕ) : ℚ), 4, [], ""⟩

/-- C7 witness app holding one committed transaction. -/
def appW7b : App := ⟨⟨[], [], [], [tW7a]⟩, inputW7⟩

/-- C7 witness store after two commits. -/
def uW7 : UserData := ⟨[], [], [], [tW7a, tW7b]⟩

/-- Witness for C7 after two concrete transaction commits. -/
theorem transaction_ids_sequential_witness :
    tW7b.id = appW7b.user_data.transaction.length + 1 ∧
    uW7.transaction.map Transaction.id = List.range' 1 uW7.transaction.length :=
  ⟨transaction_ids_sequential.1 4 appW7b tW7b rfl,
   transaction_ids_sequential.2 uW7
     (ReachableData.txn 4 inputW7 (ReachableData.txn 3 inputW7 ReachableData.empty))⟩

theorem reachable_goodData : ∀ u, ReachableData u → goodData u := by
  intro u hu
  induction hu with
  | empty => exact ⟨List.Pairwise.nil, List.Pairwise.nil, List.Pairwise.nil⟩
  | bank i hu ih =>
      obtain ⟨ih1, ih2, ih3⟩ := ih
      refine ⟨?_, ?_, ?_⟩
      · rcases addBank_bank_cases ⟨_, i⟩ with hsame | ⟨hfresh, v, happ⟩
        · rw [hsame]; exact ih1
        · rw [happ, List.pairwise_append]
          refine ⟨ih1, List.pairwise_singleton _ _, ?_⟩
          intro a ha b hb
          rw [List.mem_singleton] at hb
          subst hb
          exact fun hc => hfresh a ha ⟨hc.1, hc.2⟩
      · rw [addBank_bucket_eq]; exact ih2
      · rw [addBank_tag_eq]; exact ih3
  | bucket i hu ih =>
      obtain ⟨ih1, ih2, ih3⟩ := ih
      refine ⟨?_, ?_, ?_⟩
      · rcases addBucket_bank_cases ⟨_, i⟩ with hsame | ⟨hfresh, happ⟩
        · rw [hsame]; exact ih1
        · rw [happ, List.pairwise_append]
          refine ⟨ih1, List.pairwise_singleton _ _, ?_⟩
          intro a ha b hb
          rw [List.mem_singleton] at hb
          subst hb
          exact fun hc => hfresh a ha ⟨hc.1, hc.2⟩
      · rcases addBucket_bucket_cases ⟨_, i⟩ with hsame | ⟨hfresh, v, bk, happ⟩
        · rw [hsame]; exact ih2
        · rw [happ, List.pairwise_append]
          refine ⟨ih2, List.pairwise_singleton _ _, ?_⟩
          intro a ha b hb
          rw [List.mem_singleton] at hb
          subst hb
          exact hfresh a ha
      · rw [addBucket_tag_eq]; exact ih3
  | tag i hu ih =>
      obtain ⟨ih1, ih2, ih3⟩ := ih
      refine ⟨?_, ?_, ?_⟩
      · rw [addTag_bank_eq]; exact ih1
      · rw [addTag_bucket_eq]; exact ih2
      · rcases addTag_tag_cases ⟨_, i⟩ with hsame | ⟨hfresh, d, bk, happ⟩
        · rw [hsame]; exact ih3
        · rw [happ, List.pairwise_append]
          refine ⟨ih3, List.pairwise_singleton _ _, ?_⟩
          intro a ha b hb
          rw [List.mem_singleton] at hb
          subst hb
          exact hfresh a ha
  | txn now i hu ih =>
      obtain ⟨ih1, ih2, ih3⟩ := ih
      exact ⟨by rw [addTransaction_bank_eq]; exact ih1,
             by rw [addTransaction_bucket_eq]; exact ih2,
             by rw [addTransaction_tag_eq]; exact ih3⟩

/-- C4: a duplicate-identity FundingSource commit appends nothing and
names the conflicting key in the message, leaving exactly one stored
FundingSource with that key; and in every store reachable by commits no
two entities of the same kind (FundingSource, Allocation, Label) share
an identity key, auto-created FundingSources included. -/
theorem store_identity_keys_unique :
    (∀ u, ReachableData u → goodData u) ∧
    (∀ (app : App) (v : ℚ), parseDecimal app.input.bank_balance = some v →
      (∃ b ∈ app.user_data.bank,
        b.name = app.input.bank_name ∧ b.accountnumber = app.input.bank_account) →
      (addBank app).user_data = app.user_data ∧
      (addBank app).input.message =
        "Bank with name \x27" ++ app.input.bank_name ++ "\x27 and account \x27" ++
          app.input.bank_account ++ "\x27 already exists") ∧
    (∀ (app : App) (b : Bank), ReachableData app.user_data →
      b ∈ app.user_data.bank → b.name = app.input.bank_name →
      b.accountnumber = app.input.bank_account →
      (addBank app).user_data.bank.countP (fun x =>
          x.name == b.name && x.accountnumber == b.accountnumber) = 1) := by
  refine ⟨reachable_goodData, ?_, ?_⟩
  · rintro app v hparse ⟨b, hb, h1, h2⟩
    have hany : app.user_data.bank.any (fun x =>
        x.name == app.input.bank_name && x.accountnumber == app.input.bank_account) = true :=
      List.any_eq_true.mpr ⟨b, hb, by simp [h1, h2]⟩
    unfold addBank
    rw [hparse]
    simp [hany]
  · intro app b hreach hb h1 h2
    have hpair := (reachable_goodData _ hreach).1
    rcases addBank_bank_cases app with hsame | ⟨hfresh, v, happ⟩
    · rw [hsame]
      exact countP_bankKey_eq_one hpair hb
    · exact absurd ⟨h1, h2⟩ (hfresh b hb)

/-- Pending input typed for the C4 witness (both commit attempts). -/
def inputW4 : InputState :=
  { emptyInput with
    bank_name := "Chase", bank_account := "12345", bank_balance := "100.50" }

/-- The bank stored by the first C4 witness commit. -/
def bankW4 : Bank :=
  { name := "Chase", accountnumber := "12345",
    balance := ((100 : ℕ) : ℚ) + ((50 : ℕ) : ℚ) / (10 : ℚ) ^ 2 }

/-- C4 witness app: the duplicate commit attempt after the first one
succeeded. -/
def appW4 : App := ⟨⟨[bankW4], [], [], []⟩, inputW4⟩

/-- Witness for C4 at a concrete duplicate FundingSource commit. -/
theorem store_identity_keys_unique_witness :
    goodData appW4.user_data ∧
    (addBank appW4).user_data = appW4.user_data ∧
    (addBank appW4).input.message =
      "Bank with name \x27Chase\x27 and account \x2712345\x27 already exists" ∧
    (addBank appW4).user_data.bank.countP (fun x =>
        x.name == bankW4.name && x.accountnumber == bankW4.accountnumber) = 1 := by
  have hreach : ReachableData appW4.user_data :=
    ReachableData.bank inputW4 ReachableData.empty
  have hdup := store_identity_keys_unique.2.1 appW4
    (((100 : ℕ) : ℚ) + ((50 : ℕ) : ℚ) / (10 : ℚ) ^ 2) rfl
    ⟨bankW4, List.mem_singleton.mpr rfl, rfl, rfl⟩
  exact ⟨store_identity_keys_unique.1 appW4.user_data hreach, hdup.1, hdup.2,
    store_identity_keys_unique.2.2 appW4 bankW4 hreach
      (List.mem_singleton.mpr rfl) rfl rfl⟩

/-- C3 (amended): after a commit attempt whose validator fails, the
Navigator returns to `Normal` exactly as on success and the rejection
reason is surfaced as the status message, but the partially filled
pending-entity buffer is retained, not discarded. -/
theorem commit_failure_returns_idle (now : Nat) (app : App) :
    ((moveToNextField now InputField.BankBalance app).input.mode = InputMode.Normal ∧
     (moveToNextField now InputField.BucketAccountNumber app).input.mode = InputMode.Normal ∧
     (moveToNextField now InputField.TagDescription app).input.mode = InputMode.Normal ∧
     (moveToNextField now InputField.TransactionDescription app).input.mode =
       InputMode.Normal) ∧
    (parseDecimal app.input.bank_balance = none →
      (moveToNextField now InputField.BankBalance app).user_data = app.user_data ∧
      (moveToNextField now InputField.BankBalance app).input.message =
        "Invalid balance format" ∧
      pendingEq (moveToNextField now InputField.BankBalance app).input app.input) ∧
    (∀ v, parseDecimal app.input.bank_balance = some v →
      (∃ b ∈ app.user_data.bank,
        b.name = app.input.bank_name ∧ b.accountnumber = app.input.bank_account) →
      (moveToNextField now InputField.BankBalance app).user_data = app.user_data ∧
      (moveToNextField now InputField.BankBalance app).input.message =
        "Bank with name \x27" ++ app.input.bank_name ++ "\x27 and account \x27" ++
          app.input.bank_account ++ "\x27 already exists" ∧
      pendingEq (moveToNextField now InputField.BankBalance app).input app.input) ∧
    (parseDecimal app.input.bucket_balance = none →
      (moveToNextField now InputField.BucketAccountNumber app).user_data = app.user_data ∧
      (moveToNextField now InputField.BucketAccountNumber app).input.message =
        "Invalid balance format" ∧
      pendingEq (moveToNextField now InputField.BucketAccountNumber app).input app.input) ∧
    (∀ v, parseDecimal app.input.bucket_balance = some v →
      (∃ b ∈ app.user_data.bucket, b.name = app.input.bucket_name) →
      (moveToNextField now InputField.BucketAccountNumber app).user_data = app.user_data ∧
      (moveToNextField now InputField.BucketAccountNumber app).input.message =
        "Bucket with name \x27" ++ app.input.bucket_name ++ "\x27 already exists" ∧
      pendingEq (moveToNextField now InputField.BucketAccountNumber app).input app.input) ∧
    ((∃ t ∈ app.user_data.tag, t.name = app.input.tag_name) →
      (moveToNextField now InputField.TagDescription app).user_data = app.user_data ∧
      (moveToNextField now InputField.TagDescription app).input.message =
        "Tag with name \x27" ++ app.input.tag_name ++ "\x27 already exists" ∧
      pendingEq (moveToNextField now InputField.TagDescription app).input app.input) ∧
    ((∀ t ∈ app.user_data.tag, t.name ≠ app.input.tag_name) →
      app.user_data.bucket.find? (fun b => b.name == app.input.tag_bucket) = none →
      (moveToNextField now InputField.TagDescription app).user_data = app.user_data ∧
      (moveToNextField now InputField.TagDescription app).input.message =
        "Bucket with name \x27" ++ app.input.tag_bucket ++ "\x27 does not exist" ∧
      pendingEq (moveToNextField now InputField.TagDescription app).input app.input) ∧
    (parseTransactionType app.input.transaction_type = none →
      (moveToNextField now InputField.TransactionDescription app).user_data = app.user_data ∧
      (moveToNextField now InputField.TransactionDescription app).input.message =
        "Invalid transaction type. Use \x27i\x27 for income or \x27e\x27 for expense" ∧
      pendingEq (moveToNextField now InputField.TransactionDescription app).input
        app.input) ∧
    (∀ k, parseTransactionType app.input.transaction_type = some k →
      parseDecimal app.input.transaction_amount = none →
      (moveToNextField now InputField.TransactionDescription app).user_data = app.user_data ∧
      (moveToNextField now InputField.TransactionDescription app).input.message =
        "Invalid amount format" ∧
      pendingEq (moveToNextField now InputField.TransactionDescription app).input
        app.input) ∧
    (∀ k a m, parseTransactionType app.input.transaction_type = some k →
      parseDecimal app.input.transaction_amount = some a →
      resolveTags app.user_data.tag (tagNames app.input.transaction_tags) =
        Except.error m →
      (moveToNextField now InputField.TransactionDescription app).user_data = app.user_data ∧
      (moveToNextField now InputField.TransactionDescription app).input.message =
        "Tag \x27" ++ m ++ "\x27 does not exist" ∧
      pendingEq (moveToNextField now InputField.TransactionDescription app).input
        app.input) := by
  refine ⟨⟨rfl, rfl, rfl, rfl⟩, ?_, ?_, ?_, ?_, ?_, ?_, ?_, ?_, ?_⟩
  · intro h
    unfold moveToNextField addBank
    rw [h]
    exact ⟨rfl, rfl, by simp [pendingEq]⟩
  · rintro v hv ⟨b, hb, h1, h2⟩
    have hany : app.user_data.bank.any (fun x =>
        x.name == app.input.bank_name && x.accountnumber == app.input.bank_account) = true :=
      List.any_eq_true.mpr ⟨b, hb, by simp [h1, h2]⟩
    unfold moveToNextField addBank
    rw [hv]
    simp only [hany, if_true]
    exact ⟨trivial, trivial, by simp [pendingEq]⟩
  · intro h
    unfold moveToNextField addBucket
    rw [h]
    exact ⟨rfl, rfl, by simp [pendingEq]⟩
  · rintro v hv ⟨b, hb, h1⟩
    have hany : app.user_data.bucket.any (fun x => x.name == app.input.bucket_name) = true :=
      List.any_eq_true.mpr ⟨b, hb, by simp [h1]⟩
    unfold moveToNextField addBucket
    rw [hv]
    simp only [hany, if_true]
    exact ⟨trivial, trivial, by simp [pendingEq]⟩
  · rintro ⟨t, ht, h1⟩
    have hany : app.user_data.tag.any (fun x => x.name == app.input.tag_name) = true :=
      List.any_eq_true.mpr ⟨t, ht, by simp [h1]⟩
    unfold moveToNextField addTag
    simp only [hany, if_true]
    exact ⟨trivial, trivial, by simp [pendingEq]⟩
  · intro hfresh hfind
    have hany : app.user_data.tag.any (fun x => x.name == app.input.tag_name) = false := by
      apply List.any_eq_false.mpr
      intro t ht
      simpa using hfresh t ht
    unfold moveToNextField addTag
    rw [hany, hfind]
    exact ⟨rfl, rfl, by simp [pendingEq]⟩
  · intro h
    unfold moveToNextField addTransaction
    rw [h]
    exact ⟨rfl, rfl, by simp [pendingEq]⟩
  · intro k hk ha
    unfold moveToNextField addTransaction
    rw [hk, ha]
    exact ⟨rfl, rfl, by simp [pendingEq]⟩
  · intro k a m hk ha hm
    unfold moveToNextField addTransaction
    rw [hk, ha, hm]
    exact ⟨rfl, rfl, by simp [pendingEq]⟩

/-- C3 witness/counterexample app: a bank form with a typed name and an
unparsable balance, about to confirm the final field. -/
def appW3 : App :=
  ⟨emptyData,
   { emptyInput with
     mode := InputMode.Editing "abc" 3 InputField.BankBalance,
     bank_name := "X", bank_balance := "abc" }⟩

/-- Counterexample to C3 as stated: after this failed commit the
Navigator is back at `Normal` and the reason is surfaced, but the
pending buffer still holds the typed `bank_name`, so it was not
discarded. -/
theorem commit_failure_buffer_not_discarded :
    (moveToNextField 0 InputField.BankBalance appW3).input.mode = InputMode.Normal ∧
    (moveToNextField 0 InputField.BankBalance appW3).input.message =
      "Invalid balance format" ∧
    (moveToNextField 0 InputField.BankBalance appW3).user_data = appW3.user_data ∧
    (moveToNextField 0 InputField.BankBalance appW3).input.bank_name = "X" ∧
    (moveToNextField 0 InputField.BankBalance appW3).input.bank_name ≠ "" :=
  ⟨rfl, rfl, rfl, rfl, by decide⟩

/-- Witness for the amended C3 at the same concrete failed commit. -/
theorem commit_failure_returns_idle_witness :
    (moveToNextField 0 InputField.BankBalance appW3).input.mode = InputMode.Normal ∧
    (moveToNextField 0 InputField.BankBalance appW3).user_data = appW3.user_data ∧
    (moveToNextField 0 InputField.BankBalance appW3).input.message =
      "Invalid balance format" ∧
    pendingEq (moveToNextField 0 InputField.BankBalance appW3).input appW3.input :=
  ⟨(commit_failure_returns_idle 0 appW3).1.1,
   ((commit_failure_returns_idle 0 appW3).2.1 rfl).1,
   ((commit_failure_returns_idle 0 appW3).2.1 rfl).2.1,
   ((commit_failure_returns_idle 0 appW3).2.1 rfl).2.2⟩

/-- C9: while editing a non-first field, the backward key loads the
prior field's pending value with the cursor at that value's (byte)
length; at a first field backward changes nothing; and backward then
forward with no edits in between restores the original field with its
pending text — equal to the text being edited whenever the editor buffer
is in sync with the pending slot. -/
theorem field_navigation_roundtrip (now : Nat) (app : App) (s : String) (c : Nat)
    (f : InputField) (hmode : app.input.mode = InputMode.Editing s c f) :
    (prevField f = none →
      moveToPreviousField f app = app ∧
      handleEditingMode now Key.Up f app = some app) ∧
    (∀ g, prevField f = some g →
      handleEditingMode now Key.Up f app = some (moveToPreviousField f app) ∧
      (moveToPreviousField f app).input.mode =
        InputMode.Editing (fieldValue app.input g) (utf8Len (fieldValue app.input g)) g ∧
      handleEditingMode now Key.Down g (moveToPreviousField f app) =
        some (moveToNextField now g (moveToPreviousField f app)) ∧
      (moveToNextField now g (moveToPreviousField f app)).input.mode =
        InputMode.Editing (fieldValue app.input f) (utf8Len (fieldValue app.input f)) f ∧
      (fieldValue app.input f = s →
        (moveToNextField now g (moveToPreviousField f app)).input.mode =
          InputMode.Editing s (utf8Len s) f)) := by
  cases f <;>
    first
    | exact ⟨fun _ => ⟨rfl, rfl⟩, fun g hg => Option.noConfusion hg⟩
    | exact ⟨fun hnone => Option.noConfusion hnone,
        fun g hg => by
          cases hg
          exact ⟨rfl, rfl, rfl, rfl, fun h => by subst h; rfl⟩⟩

/-- C9 witness app: editing the bank account-number field with the
buffer in sync with its pending slot. -/
def appW9 : App :=
  ⟨emptyData,
   { emptyInput with
     mode := InputMode.Editing "12345" 5 InputField.BankAccountNumber,
     bank_name := "Chase", bank_account := "12345" }⟩

/-- C9 witness app: editing the first bank field. -/
def appW9b : App :=
  ⟨emptyData,
   { emptyInput with
     mode := InputMode.Editing "Chase" 5 InputField.BankName,
     bank_name := "Chase" }⟩

/-- Witness for C9: a concrete backward/forward round trip and a
first-field no-op. -/
theorem field_navigation_roundtrip_witness :
    (moveToPreviousField InputField.BankAccountNumber appW9).input.mode =
      InputMode.Editing "Chase" 5 InputField.BankName ∧
    (moveToNextField 0 InputField.BankName
        (moveToPreviousField InputField.BankAccountNumber appW9)).input.mode =
      InputMode.Editing "12345" 5 InputField.BankAccountNumber ∧
    handleEditingMode 0 Key.Up InputField.BankName appW9b = some appW9b :=
  ⟨((field_navigation_roundtrip 0 appW9 "12345" 5 InputField.BankAccountNumber rfl).2
      InputField.BankName rfl).2.1,
   ((field_navigation_roundtrip 0 appW9 "12345" 5 InputField.BankAccountNumber rfl).2
      InputField.BankName rfl).2.2.2.2 rfl,
   ((field_navigation_roundtrip 0 appW9b "Chase" 5 InputField.BankName rfl).1 rfl).2⟩

/-- C1 app: the spec's example FundingSource fields typed, about to
confirm the final (balance) field. -/
def appW1 : App :=
  ⟨emptyData,
   { emptyInput with
     mode := InputMode.Editing "100.50" 6 InputField.BankBalance,
     bank_name := "Chase", bank_account := "12345", bank_balance := "100.50" }⟩

/-- C1: confirming the example bank form does append the typed record,
clear the pending fields and return to `Normal` — but the final status
message is empty, not `Bank added successfully`: `add_bank` sets the
success message and then `clear_input_fields` immediately overwrites it
with the empty string (a dead store in the source). -/
theorem bank_commit_message_cleared :
    (moveToNextField 0 InputField.BankBalance appW1).user_data.bank =
      [{ name := "Chase", accountnumber := "12345",
         balance := ((100 : ℕ) : ℚ) + ((50 : ℕ) : ℚ) / (10 : ℚ) ^ 2 }] ∧
    ((100 : ℕ) : ℚ) + ((50 : ℕ) : ℚ) / (10 : ℚ) ^ 2 = 201 / 2 ∧
    (moveToNextField 0 InputField.BankBalance appW1).input.mode = InputMode.Normal ∧
    (moveToNextField 0 InputField.BankBalance appW1).input.bank_name = "" ∧
    (moveToNextField 0 InputField.BankBalance appW1).input.bank_account = "" ∧
    (moveToNextField 0 InputField.BankBalance appW1).input.bank_balance = "" ∧
    (moveToNextField 0 InputField.BankBalance appW1).input.message = "" :=
  ⟨rfl, by norm_num, rfl, rfl, rfl, rfl, rfl⟩

/-- C10 app: a fresh bank-name field in editing mode. -/
def appW10 : App :=
  ⟨emptyData, { emptyInput with mode := InputMode.Editing "" 0 InputField.BankName }⟩

/-- C10 app: after typing the two-byte character `é` the cursor is the
char count 1, strictly inside the first character's byte range. -/
def appW10b : App :=
  ⟨emptyData,
   { emptyInput with
     mode := InputMode.Editing "é" 1 InputField.BankName, bank_name := "é" }⟩

/-- C10: typing a two-byte character advances the cursor by one, leaving
it off every character boundary, so the next character keystroke hits
`String::insert` at a mid-character byte index — a panic, modelled as
`none`. -/
theorem editing_cursor_multibyte_panic :
    handleEditingMode 0 (Key.Char 'é') InputField.BankName appW10 = some appW10b ∧
    (1 : Nat) < ('é').utf8Size ∧
    handleEditingMode 0 (Key.Char 'x') InputField.BankName appW10b = none :=
  ⟨rfl, by decide, rfl⟩

end Rojmer
